import Mathlib

/-!
# Verification of the `config_parser` configuration language

A shallow embedding of `src/config_parser.py`: the position-tracking
scanner (`skip_whitespace`, `match`), the recursive-descent parser
(`parse_number`, `parse_identifier`, `parse_string`, `parse_dict`,
`parse_value`, `parse_let`, `parse_q`, `parse_var`, `parse_expression`,
`parse_statement`, `parse_all`), the tree-walking interpreter
(`evaluate`, `_eval_value`) and the driver (`main`'s parse-then-evaluate
loop).  Python's exception-based control flow is modelled with `Except`;
the mutable parser/interpreter state is threaded explicitly.  Parser
loops carry an explicit fuel argument (always instantiated large enough)
so that all definitions compute by `rfl`/`decide`.
-/

namespace ConfigParser

/-- Python's `str.isspace` (config_parser.py:21): true exactly for the
Unicode whitespace characters.  Note this is strictly larger than the
set \x7bspace, tab, newline\x7d: it also holds for `\r`, `\x0b`, `\x0c`,
the separator controls `\x1c`-`\x1f`, `\x85` and the Unicode space
separators. -/
def pyIsspace (c : Char) : Bool :=
  c = ' ' || c = '\t' || c = '\n' || c = '\r' || c = '\x0b' || c = '\x0c' ||
  c = '\x1c' || c = '\x1d' || c = '\x1e' || c = '\x1f' || c = '\x85' || c = '\xa0' ||
  c.val = 0x1680 || (0x2000 ≤ c.val && c.val ≤ 0x200a) ||
  c.val = 0x2028 || c.val = 0x2029 || c.val = 0x202f || c.val = 0x205f || c.val = 0x3000

/-- The parser state: `self.text`, `self.pos`, `self.line`, `self.col`
(config_parser.py:11-15). -/
structure PState where
  text : List Char
  pos : Nat
  line : Nat
  col : Nat
  deriving Repr, DecidableEq

/-- A raised `ConfigLanguageError` from `Parser.error`
(config_parser.py:17-18): it reports `self.line` and `self.col` and a
message.  `errPos` additionally records `self.pos` at the raise site
(instrumentation of the raise, used to compare the reported position
with the true one). -/
structure PErr where
  line : Nat
  col : Nat
  msg : String
  errPos : Nat
  deriving Repr, DecidableEq

/-- One step of `skip_whitespace`'s loop body (config_parser.py:22-27):
a newline increments `line` and resets `col` to 1, any other whitespace
character increments `col`; `pos` always advances by one. -/
def wsStep (s : PState) (c : Char) : PState :=
  if c = '\n' then { s with pos := s.pos + 1, line := s.line + 1, col := 1 }
  else { s with pos := s.pos + 1, col := s.col + 1 }

/-- Fuelled loop of `Parser.skip_whitespace` (config_parser.py:20-27). -/
def skipWsF : Nat → PState → PState
  | 0, s => s
  | fuel + 1, s =>
    match s.text[s.pos]? with
    | some c => if pyIsspace c then skipWsF fuel (wsStep s c) else s
    | none => s

/-- `Parser.skip_whitespace` (config_parser.py:20-27): the loop runs at
most `text.length - pos` times, so that fuel is exact. -/
def skipWs (s : PState) : PState :=
  skipWsF (s.text.length - s.pos) s

/-- The lexical patterns the source ever passes to `Parser.match`:
`\d+`, `[_a-z]+`, and literal tokens.  A literal carries both its
characters and the regex source text used in the error message. -/
inductive Pat where
  | digits
  | ident
  | lit (chars : List Char) (src : String)
  deriving Repr

/-- The regex source of a pattern, as interpolated into the error
message of `Parser.match` (config_parser.py:33). -/
def Pat.src : Pat → String
  | .digits => "\\d+"
  | .ident => "[_a-z]+"
  | .lit _ s => s

/-- Identifier characters: the class `[_a-z]` (config_parser.py:44). -/
def isIdentChar (c : Char) : Bool :=
  c = '_' || ('a' ≤ c && c ≤ 'z')

/-- `cs` begins with `pre` (Python `re.match` on a literal pattern /
`str.startswith`). -/
def litAt : List Char → List Char → Bool
  | [], _ => true
  | _ :: _, [] => false
  | a :: pre, b :: cs => a = b && litAt pre cs

/-- `re.match(pattern, text[pos:])` for the patterns of `Pat`: the
token matched at the front of `cs`, or `none` (config_parser.py:31). -/
def reMatch : Pat → List Char → Option (List Char)
  | .digits, cs =>
    let tok := cs.takeWhile (·.isDigit)
    if tok.isEmpty then none else some tok
  | .ident, cs =>
    let tok := cs.takeWhile isIdentChar
    if tok.isEmpty then none else some tok
  | .lit l _, cs => if litAt l cs then some l else none

/-- The error raised by `Parser.error` (config_parser.py:17-18) at the
current state, with the given message. -/
def raiseAt (s : PState) (msg : String) : PErr :=
  ⟨s.line, s.col, msg, s.pos⟩

/-- The message of the Syntax error raised on a `Parser.match` failure
(config_parser.py:33). -/
def expectedMsg (p : Pat) : String :=
  "Ожидается токен, соответствующий регулярному выражению: " ++ p.src

/-- The part of `Parser.match` after the initial whitespace skip
(config_parser.py:31-37), applied to the already-skipped state. -/
def pmatchAt (p : Pat) (s : PState) : Except PErr (List Char × PState) :=
  match reMatch p (s.text.drop s.pos) with
  | none => .error (raiseAt s (expectedMsg p))
  | some tok =>
    .ok (tok, { s with pos := s.pos + tok.length, col := s.col + tok.length })

/-- `Parser.match` (config_parser.py:29-37): skip whitespace, try the
pattern at the current position; on success consume the token (advance
`pos` and `col` by its length), on failure raise a positioned error. -/
def pmatch (p : Pat) (s : PState) : Except PErr (List Char × PState) :=
  pmatchAt p (skipWs s)

/-- `int(num_str)` for a digit string (config_parser.py:41). -/
def natOfDigits (tok : List Char) : Nat :=
  tok.foldl (fun n c => n * 10 + (c.toNat - '0'.toNat)) 0

/-- `Parser.parse_number` (config_parser.py:39-41). -/
def parseNumber (s : PState) : Except PErr (Nat × PState) := do
  let (tok, s) ← pmatch .digits s
  .ok (natOfDigits tok, s)

/-- `Parser.parse_identifier` (config_parser.py:43-45). -/
def parseIdentifier (s : PState) : Except PErr (String × PState) := do
  let (tok, s) ← pmatch .ident s
  .ok (String.mk tok, s)

/-- The scan loop of `Parser.parse_string` (config_parser.py:50-55),
returning the final `pos`: stop at an unescaped `"` or at end of input;
a backslash consumes itself and unconditionally the following character
(breaking out with `pos = len` when the backslash is the last
character).  `line`/`col` are NOT touched by this loop, mirroring the
source. -/
def strBodyEnd (text : List Char) : Nat → Nat → Nat
  | 0, pos => pos
  | fuel + 1, pos =>
    match text[pos]? with
    | none => pos
    | some c =>
      if c = '"' then pos
      else if c = '\\' then
        if pos + 1 ≥ text.length then pos + 1
        else strBodyEnd text fuel (pos + 2)
      else strBodyEnd text fuel (pos + 1)

/-- `Parser.parse_string` (config_parser.py:47-60): opening quote, scan
the body verbatim (escapes undecoded), raise `Незакрытая строка` when no
unescaped closing quote is reached, otherwise slice `text[start:pos]`
and consume the closing quote. -/
def parseString (s : PState) : Except PErr (List Char × PState) := do
  let (_, s) ← pmatch (.lit ['"'] "\"") s
  let start := s.pos
  let stop := strBodyEnd s.text (s.text.length + 1) s.pos
  let s := { s with pos := stop }
  match s.text[stop]? with
  | some c =>
    if c = '"' then do
      let content := (s.text.drop start).take (stop - start)
      let (_, s) ← pmatch (.lit ['"'] "\"") s
      .ok (content, s)
    else .error (raiseAt s "Незакрытая строка")
  | none => .error (raiseAt s "Незакрытая строка")

/-- The abstract syntax tree.  The source represents nodes as Python
tuples tagged with a string (`('let', name, value)`, `('q', expr)`,
`('var', name)`) or as raw Python values (int, str, dict); runtime
values share this representation, so a single type serves both.
`unknown` stands for any tuple whose tag is none of the recognized
three — expressible in the dynamically-typed source and handled by the
interpreter's defensive branch (config_parser.py:168-169). -/
inductive Ast where
  | num (n : Nat)
  | str (s : List Char)
  | dict (entries : List (String × Ast))
  | var (name : String)
  | letB (name : String) (v : Ast)
  | q (v : Ast)
  | unknown (tag : String) (args : List Ast)
  deriving Repr, Inhabited

/-- Python dict assignment `d[k] = v` (config_parser.py:75,157) on an
insertion-ordered association list: an existing key keeps its position
and has its value replaced; a new key is appended. -/
def pyInsert : List (String × Ast) → String → Ast → List (String × Ast)
  | [], k, v => [(k, v)]
  | (k', v') :: rest, k, v =>
    if k' = k then (k', v) :: rest else (k', v') :: pyInsert rest k v

/-- The error used when a fuelled parser loop runs out of fuel.  The
Python loops always terminate (each iteration consumes input), and
every entry point below supplies more than enough fuel, so this never
occurs on the runs the theorems evaluate. -/
def fuelErr (s : PState) : PErr :=
  raiseAt s "fuel exhausted"

/-- The comma between dict entries: consumed before every entry except
the first (config_parser.py:70-71). -/
def parseDictComma (first : Bool) (s : PState) : Except PErr PState :=
  if first then .ok s
  else
    match pmatch (.lit [','] ",") s with
    | .error e => .error e
    | .ok (_, s') => .ok s'

mutual

/-- The entry-collecting loop of `Parser.parse_dict`
(config_parser.py:64-76): while input remains, skip whitespace; break
on `}`; otherwise (after a comma, except before the first entry) parse
`identifier => value` and assign it into the result dict. -/
def parseDictLoop : Nat → Bool → List (String × Ast) → PState →
    Except PErr (List (String × Ast) × PState)
  | 0, _, _, s => .error (fuelErr s)
  | fuel + 1, first, result, s =>
    if s.pos < s.text.length then
      if (skipWs s).text[(skipWs s).pos]? = some '\x7d' then .ok (result, skipWs s)
      else
        match parseDictComma first (skipWs s) with
        | .error e => .error e
        | .ok s1 =>
          match parseIdentifier s1 with
          | .error e => .error e
          | .ok (key, s2) =>
            match pmatch (.lit ['=', '>'] "=>") s2 with
            | .error e => .error e
            | .ok (_, s3) =>
              match parseValue fuel s3 with
              | .error e => .error e
              | .ok (value, s4) => parseDictLoop fuel false (pyInsert result key value) s4
    else .ok (result, s)

/-- `Parser.parse_dict` (config_parser.py:62-78). -/
def parseDict : Nat → PState → Except PErr (List (String × Ast) × PState)
  | 0, s => .error (fuelErr s)
  | fuel + 1, s =>
    match pmatch (.lit ['\x7b'] "\x7b") s with
    | .error e => .error e
    | .ok (_, s1) =>
      match parseDictLoop fuel true [] s1 with
      | .error e => .error e
      | .ok (result, s2) =>
        match pmatch (.lit ['\x7d'] "\x7d") s2 with
        | .error e => .error e
        | .ok (_, s3) => .ok (result, s3)

/-- `Parser.parse_value` (config_parser.py:80-95): dispatch on the
first non-whitespace character. -/
def parseValue : Nat → PState → Except PErr (Ast × PState)
  | 0, s => .error (fuelErr s)
  | fuel + 1, s =>
    match (skipWs s).text[(skipWs s).pos]? with
    | none => .error (raiseAt (skipWs s) "Неожиданный конец входных данных")
    | some c =>
      if c.isDigit then
        match parseNumber (skipWs s) with
        | .error e => .error e
        | .ok (n, s1) => .ok (.num n, s1)
      else if c = '"' then
        match parseString (skipWs s) with
        | .error e => .error e
        | .ok (cs, s1) => .ok (.str cs, s1)
      else if c = '\x7b' then
        match parseDict fuel (skipWs s) with
        | .error e => .error e
        | .ok (entries, s1) => .ok (.dict entries, s1)
      else if c = '$' then
        match parseVar (skipWs s) with
        | .error e => .error e
        | .ok (v, s1) => .ok (v, s1)
      else .error (raiseAt (skipWs s) "Ожидается число, строка, словарь или переменная ($[имя])")

/-- `Parser.parse_var` (config_parser.py:110-115). -/
def parseVar (s : PState) : Except PErr (Ast × PState) := do
  let (_, s) ← pmatch (.lit ['$'] "\\$") s
  let (_, s) ← pmatch (.lit ['['] "\\[") s
  let (name, s) ← parseIdentifier s
  let (_, s) ← pmatch (.lit [']'] "\\]") s
  .ok (.var name, s)

end

/-- `Parser.parse_let` (config_parser.py:97-102). -/
def parseLet (fuel : Nat) (s : PState) : Except PErr (Ast × PState) := do
  let (_, s) ← pmatch (.lit ['l', 'e', 't'] "let") s
  let (name, s) ← parseIdentifier s
  let (_, s) ← pmatch (.lit ['='] "=") s
  let (value, s) ← parseValue fuel s
  .ok (.letB name value, s)

/-- `Parser.parse_q` (config_parser.py:104-108). -/
def parseQ (fuel : Nat) (s : PState) : Except PErr (Ast × PState) := do
  let (_, s) ← pmatch (.lit ['q', '('] "q\\(") s
  let (expr, s) ← parseValue fuel s
  let (_, s) ← pmatch (.lit [')'] "\\)") s
  .ok (.q expr, s)

/-- `Parser.parse_expression` (config_parser.py:117-122). -/
def parseExpression (fuel : Nat) (s : PState) : Except PErr (Ast × PState) :=
  if (skipWs s).text[(skipWs s).pos]? = some '$' then parseVar (skipWs s)
  else parseValue fuel (skipWs s)

/-- `Parser.parse_statement` (config_parser.py:124-133): `none` at end
of input; dispatch on the prefixes `let` and `q(`, else an
expression. -/
def parseStatement (fuel : Nat) (s : PState) : Except PErr (Option Ast × PState) :=
  if (skipWs s).pos ≥ (skipWs s).text.length then .ok (none, skipWs s)
  else if litAt ['l', 'e', 't'] ((skipWs s).text.drop (skipWs s).pos) then
    match parseLet fuel (skipWs s) with
    | .error e => .error e
    | .ok (stmt, s1) => .ok (some stmt, s1)
  else if litAt ['q', '('] ((skipWs s).text.drop (skipWs s).pos) then
    match parseQ fuel (skipWs s) with
    | .error e => .error e
    | .ok (stmt, s1) => .ok (some stmt, s1)
  else
    match parseExpression fuel (skipWs s) with
    | .error e => .error e
    | .ok (stmt, s1) => .ok (some stmt, s1)

/-- The loop of `Parser.parse_all` (config_parser.py:135-145): while
input remains, skip whitespace, stop at end of input, parse a statement
and append it (a `none` statement, i.e. end of input, stops the
loop). -/
def parseAllF : Nat → PState → Except PErr (List Ast)
  | 0, s => .error (fuelErr s)
  | fuel + 1, s =>
    if s.pos < s.text.length then
      if (skipWs s).pos ≥ (skipWs s).text.length then .ok []
      else
        match parseStatement fuel (skipWs s) with
        | .error e => .error e
        | .ok (none, _) => .ok []
        | .ok (some stmt, s2) =>
          match parseAllF fuel s2 with
          | .error e => .error e
          | .ok rest => .ok (stmt :: rest)
    else .ok []

/-- `Parser(text)` followed by `Parser.parse_all`
(config_parser.py:198-199): parse the whole source into a statement
list, or fail with the first positioned Syntax error.  The fuel bound
far exceeds what any input of this length can consume. -/
def parseAll (src : String) : Except PErr (List Ast) :=
  parseAllF (4 * src.length + 16) ⟨src.toList, 0, 1, 1⟩

/-! ## The interpreter -/

/-- A raised `ConfigLanguageError` during evaluation
(config_parser.py:166,169). -/
inductive EErr where
  | undefinedVar (name : String)
  | unknownNode (node : Ast)
  deriving Repr

/-- The interpreter's `self.variables`: a Python dict from name to
runtime value (config_parser.py:149). -/
abbrev Env := List (String × Ast)

/-- Python dict lookup `d[k]` / `k in d` on the ordered association
list. -/
def lookupEnv : Env → String → Option Ast
  | [], _ => none
  | (k, v) :: rest, n => if k = n then some v else lookupEnv rest n

mutual

/-- `Interpreter._eval_value` (config_parser.py:173-179): a dict is
rebuilt with every entry's value resolved in order; a `('var', name)`
tuple is delegated to `evaluate`, which looks the name up in
`self.variables` and raises when it is absent (config_parser.py:163-167,
inlined here); everything else — numbers, strings, and any other tuple —
is returned verbatim by the final `else` branch. -/
def evalValue (env : Env) : Ast → Except EErr Ast
  | .dict entries =>
    match evalEntries env entries with
    | .ok res => .ok (.dict res)
    | .error e => .error e
  | .var n =>
    match lookupEnv env n with
    | some v => .ok v
    | none => .error (.undefinedVar n)
  | v => .ok v

/-- The dict comprehension `\x7bk: self._eval_value(v) for k, v in
value.items()\x7d` (config_parser.py:175): entries are resolved in
order; keys of a Python dict are unique, so rebuilding is a plain
map. -/
def evalEntries (env : Env) : List (String × Ast) → Except EErr (List (String × Ast))
  | [] => .ok []
  | (k, v) :: rest =>
    match evalValue env v with
    | .error e => .error e
    | .ok v' =>
      match evalEntries env rest with
      | .error e => .error e
      | .ok rest' => .ok ((k, v') :: rest')

end

/-! ## The serializer

Modelled from the spec: the output printer (the `yaml.dump(...)` call at
config_parser.py:162) is declared out of scope by the spec and "assumed
to be an existing structured-data printer that renders scalars and
ordered key/value mappings in a block style": unsigned integers and text
values as plain scalars, dictionaries as an ordered block mapping
(`key: value` per line, nested dictionaries indented, no flow style),
trailing whitespace trimmed per directive block. -/

mutual

/-- Modelled from the spec: the printed lines of one value — a scalar
is one plain line; a dictionary is one block per entry, in entry
order. -/
def serLines : Ast → List (List Char)
  | .num n => [(Nat.repr n).toList]
  | .str s => [s]
  | .dict entries => serBlocks entries
  | .var n => [('$' :: '[' :: n.toList) ++ [']']]
  | .letB _ _ => []
  | .q _ => []
  | .unknown tag _ => [tag.toList]

/-- Modelled from the spec: each dictionary entry renders as
`key: scalar` on one line, or as `key:` followed by the nested block
indented by two spaces. -/
def serBlocks : List (String × Ast) → List (List Char)
  | [] => []
  | (k, v) :: rest =>
    (match v with
      | .dict entries =>
        (k.toList ++ [':']) :: (serBlocks entries).map (fun l => ' ' :: ' ' :: l)
      | v => [(k.toList ++ [':', ' ']) ++ (serLines v).flatten]) ++ serBlocks rest

end

/-- Modelled from the spec: the full serialized block handed to `print`
for one `q(...)` directive — the lines joined by newlines. -/
def serialize (v : Ast) : String :=
  String.mk (List.intercalate ['\n'] (serLines v))

/-! ## Statement evaluation and the driver -/

/-- `Interpreter.evaluate` (config_parser.py:151-171) on one statement:
the result is the returned value (`none` models Python's implicit
`None`), the environment after the statement, and the list of lines
printed by it.  A `('let', name, value)` tuple resolves the value and
assigns it; a `('q', expr)` tuple resolves the expression and prints its
serialization; a `('var', name)` tuple is looked up, raising
Undefined-Variable when absent; any other tuple raises the unknown-node
error; a non-tuple (number, string or dict) is returned as-is, with no
resolution of its contents. -/
def evaluate (env : Env) : Ast → Except EErr (Option Ast × Env × List String)
  | .letB name value =>
    match evalValue env value with
    | .error e => .error e
    | .ok rv => .ok (none, pyInsert env name rv, [])
  | .q expr =>
    match evalValue env expr with
    | .error e => .error e
    | .ok rv => .ok (none, env, [serialize rv])
  | .var n =>
    match lookupEnv env n with
    | some v => .ok (some v, env, [])
    | none => .error (.undefinedVar n)
  | .unknown tag args => .error (.unknownNode (.unknown tag args))
  | a => .ok (some a, env, [])

/-- The driver loop of `main` (config_parser.py:206-207): evaluate the
statements in order, collecting printed output; stop at the first
evaluation error, keeping the output already produced. -/
def evalStmts : Env → List Ast → List String × Option EErr × Env
  | env, [] => ([], none, env)
  | env, stmt :: rest =>
    match evaluate env stmt with
    | .error e => ([], some e, env)
    | .ok (_, env', out) =>
      let (outs, r, env'') := evalStmts env' rest
      (out ++ outs, r, env'')

/-- Either phase's error, as surfaced by `main`
(config_parser.py:197-210). -/
inductive RunErr where
  | parse (e : PErr)
  | eval (e : EErr)
  deriving Repr

/-- `main`'s two-phase run on a source text (config_parser.py:197-210):
parse the whole program first; a parse error yields no output at all;
otherwise evaluate the statements in order with a fresh interpreter,
yielding the printed outputs and the first evaluation error, if any. -/
def runProgram (src : String) : List String × Option RunErr :=
  match parseAll src with
  | .error e => ([], some (.parse e))
  | .ok stmts =>
    let (outs, r, _) := evalStmts [] stmts
    (outs, r.map .eval)

/-- The process exit code `main` produces for a run that got past
argument handling and file reading: 1 when either phase raised, else 0
(config_parser.py:202,210). -/
def exitCode (r : List String × Option RunErr) : Nat :=
  match r.2 with
  | some _ => 1
  | none => 0

/-- A bare value statement: a non-tuple AST node (number, string or
dict), as opposed to the tagged tuples `let`/`q`/`var`/unknown. -/
def isBareValue : Ast → Bool
  | .num _ => true
  | .str _ => true
  | .dict _ => true
  | _ => false

/-- The key shown by a serialized output line: `none` for an indented
(nested) line, otherwise the text before the first colon. -/
def lineKey : List Char → Option (List Char)
  | [] => none
  | c :: rest => if c = ' ' then none else some ((c :: rest).takeWhile (fun ch => ch != ':'))

/-- The keys of the non-indented lines of a serialized block, in
order. -/
def topKeys (lines : List (List Char)) : List (List Char) :=
  lines.filterMap lineKey

/-- A parser-produced identifier: nonempty and drawn from the `[_a-z]`
character class (config_parser.py:44). -/
def identLike (k : String) : Prop :=
  k.toList ≠ [] ∧ ∀ c ∈ k.toList, isIdentChar c = true

/-- The whitespace run at the current position: the maximal prefix of
the remaining text whose characters satisfy `pyIsspace`. -/
def wsRun (s : PState) : List Char :=
  (s.text.drop s.pos).takeWhile pyIsspace

/-- The true 1-based line and column of byte offset `n` in `text`, as
determined by the text consumed up to that offset: each newline
increments the line and resets the column to 1, every other character
advances the column. -/
def lineColOfOffset (text : List Char) (n : Nat) : Nat × Nat :=
  (text.take n).foldl
    (fun lc c => if c = '\n' then (lc.1 + 1, 1) else (lc.1, lc.2 + 1)) (1, 1)

/-! ## Scanner lemmas -/

theorem wsStep_text (s : PState) (c : Char) : (wsStep s c).text = s.text := by
  unfold wsStep
  split <;> rfl

theorem wsStep_pos (s : PState) (c : Char) : (wsStep s c).pos = s.pos + 1 := by
  unfold wsStep
  split <;> rfl

theorem foldl_wsStep_text (run : List Char) (s : PState) :
    (List.foldl wsStep s run).text = s.text := by
  induction run generalizing s with
  | nil => rfl
  | cons c run ih => simp only [List.foldl_cons, ih, wsStep_text]

theorem foldl_wsStep_pos (run : List Char) (s : PState) :
    (List.foldl wsStep s run).pos = s.pos + run.length := by
  induction run generalizing s with
  | nil => rfl
  | cons c run ih =>
    simp only [List.foldl_cons, ih, wsStep_pos, List.length_cons]
    omega

theorem foldl_wsStep_line (run : List Char) (s : PState) :
    (List.foldl wsStep s run).line = s.line + run.count '\n' := by
  induction run generalizing s with
  | nil => simp
  | cons c run ih =>
    by_cases hc : c = '\n'
    · subst hc
      simp [List.foldl_cons, ih, wsStep, List.count_cons]
      omega
    · simp [List.foldl_cons, ih, wsStep, hc, List.count_cons]

theorem skipWsF_eq (fuel : Nat) (s : PState) (h : s.text.length - s.pos ≤ fuel) :
    skipWsF fuel s = List.foldl wsStep s ((s.text.drop s.pos).takeWhile pyIsspace) := by
  induction fuel generalizing s with
  | zero =>
    have hd : s.text.drop s.pos = [] := List.drop_eq_nil_of_le (by omega)
    simp [skipWsF, hd]
  | succ fuel ih =>
    unfold skipWsF
    cases hg : s.text[s.pos]? with
    | none =>
      have hd : s.text.drop s.pos = [] :=
        List.drop_eq_nil_of_le (List.getElem?_eq_none_iff.mp hg)
      simp [hd]
    | some c =>
      have hlt : s.pos < s.text.length := by
        by_contra hge
        rw [List.getElem?_eq_none (by omega)] at hg
        cases hg
      have hdrop : s.text.drop s.pos = c :: s.text.drop (s.pos + 1) := by
        rw [List.drop_eq_getElem_cons hlt]
        have hge : s.text[s.pos]? = some s.text[s.pos] := List.getElem?_eq_getElem hlt
        rw [hge] at hg
        injection hg with hg
        rw [hg]
      by_cases hws : pyIsspace c
      · have hrec := ih (wsStep s c) (by rw [wsStep_text, wsStep_pos]; omega)
        rw [wsStep_text, wsStep_pos] at hrec
        rw [hdrop, List.takeWhile_cons, if_pos hws, List.foldl_cons]
        simpa [hws] using hrec
      · rw [hdrop, List.takeWhile_cons, if_neg hws]
        simp [hws]

theorem skipWs_eq (s : PState) : skipWs s = List.foldl wsStep s (wsRun s) :=
  skipWsF_eq _ s (Nat.le_refl _)

theorem head?_dropWhile_false (p : Char → Bool) (l : List Char) (c : Char)
    (h : (l.dropWhile p).head? = some c) : p c = false := by
  induction l with
  | nil => cases h
  | cons a l ih =>
    rw [List.dropWhile_cons] at h
    split at h
    · exact ih h
    · next hpa =>
      injection h with h
      subst h
      simpa using hpa

/-- C9 — corrected.  `skip_whitespace` consumes exactly the maximal
prefix of characters satisfying Python's `isspace` (not merely space,
tab and newline): the resulting state is the fold of the per-character
update `wsStep` (newline: line+1, column reset to 1; other whitespace:
column+1; position always +1) over that prefix, the text is unchanged,
the position advances by the prefix's length, the line grows by the
number of newlines consumed, every consumed character satisfies
`pyIsspace`, and the first unconsumed character (if any) does not. -/
theorem claimC9 (s : PState) :
    skipWs s = List.foldl wsStep s (wsRun s)
    ∧ (skipWs s).text = s.text
    ∧ (skipWs s).pos = s.pos + (wsRun s).length
    ∧ (skipWs s).line = s.line + (wsRun s).count '\n'
    ∧ (∀ c ∈ wsRun s, pyIsspace c = true)
    ∧ (∀ c, s.text[s.pos + (wsRun s).length]? = some c → pyIsspace c = false) := by
  refine ⟨skipWs_eq s, ?_, ?_, ?_, ?_, ?_⟩
  · rw [skipWs_eq]; exact foldl_wsStep_text _ _
  · rw [skipWs_eq]; exact foldl_wsStep_pos _ _
  · rw [skipWs_eq]; exact foldl_wsStep_line _ _
  · intro c hc
    exact List.mem_takeWhile_imp hc
  · intro c hc
    have h1 : s.text[s.pos + (wsRun s).length]? = (s.text.drop s.pos)[(wsRun s).length]? :=
      (List.getElem?_drop s.text s.pos (wsRun s).length).symm
    have h2 : s.text.drop s.pos =
        wsRun s ++ (s.text.drop s.pos).dropWhile pyIsspace :=
      (List.takeWhile_append_dropWhile pyIsspace (s.text.drop s.pos)).symm
    rw [h1, h2, List.getElem?_append_right (Nat.le_refl _), Nat.sub_self] at hc
    have h3 : ((s.text.drop s.pos).dropWhile pyIsspace)[0]? =
        ((s.text.drop s.pos).dropWhile pyIsspace).head? := by
      cases hdw : (s.text.drop s.pos).dropWhile pyIsspace <;> simp [hdw]
    rw [h3] at hc
    exact head?_dropWhile_false pyIsspace _ c hc

/-- C9 witness: on the concrete state over `" x"`, the theorem's
position formula holds and its stopping condition applies to `'x'`. -/
theorem claimC9_witness :
    (skipWs ⟨[' ', 'x'], 0, 1, 1⟩).pos = 0 + (wsRun ⟨[' ', 'x'], 0, 1, 1⟩).length
    ∧ pyIsspace 'x' = false := by
  have h := claimC9 ⟨[' ', 'x'], 0, 1, 1⟩
  exact ⟨h.2.2.1, h.2.2.2.2.2 'x' (by decide)⟩

/-- C9 counterexample: on `"\rx"`, `skip_whitespace` consumes the
carriage return — a character that is none of space, tab and newline —
so it does not stop at the first character outside that three-character
set, refuting the claim as stated. -/
theorem claimC9_counterexample :
    (skipWs ⟨['\r', 'x'], 0, 1, 1⟩).pos = 1
    ∧ pyIsspace '\r' = true
    ∧ ¬('\r' = ' ' ∨ '\r' = '\t' ∨ '\r' = '\n') := by
  refine ⟨rfl, rfl, ?_⟩
  decide

/-- C5 — corrected (amended).  Every mismatch raised by `Parser.match`
carries the parser's *tracked* line and column counters at the point of
mismatch (after whitespace skipping), the raise-site offset, and the
description of the expected lexical pattern.  (The tracked counters are
not always the true line/column of that byte offset: `parse_string`
advances the offset over a string-literal body without updating them —
see the counterexample.) -/
theorem claimC5 (p : Pat) (s : PState) (e : PErr) (h : pmatch p s = .error e) :
    e.line = (skipWs s).line ∧ e.col = (skipWs s).col
    ∧ e.errPos = (skipWs s).pos ∧ e.msg = expectedMsg p := by
  unfold pmatch pmatchAt at h
  cases hr : reMatch p ((skipWs s).text.drop (skipWs s).pos) with
  | none =>
    rw [hr] at h
    injection h with h
    subst h
    exact ⟨rfl, rfl, rfl, rfl⟩
  | some tok =>
    rw [hr] at h
    cases h

/-- C5 witness: matching `\d+` against `"x"` fails, and the error
fields are the tracked state's. -/
theorem claimC5_witness :
    (PErr.mk 1 1 "Ожидается токен, соответствующий регулярному выражению: \\d+" 0).line
        = (skipWs ⟨['x'], 0, 1, 1⟩).line
    ∧ (PErr.mk 1 1 "Ожидается токен, соответствующий регулярному выражению: \\d+" 0).col
        = (skipWs ⟨['x'], 0, 1, 1⟩).col
    ∧ (PErr.mk 1 1 "Ожидается токен, соответствующий регулярному выражению: \\d+" 0).errPos
        = (skipWs ⟨['x'], 0, 1, 1⟩).pos
    ∧ (PErr.mk 1 1 "Ожидается токен, соответствующий регулярному выражению: \\d+" 0).msg
        = expectedMsg .digits :=
  claimC5 .digits ⟨['x'], 0, 1, 1⟩
    ⟨1, 1, "Ожидается токен, соответствующий регулярному выражению: \\d+", 0⟩ (by rfl)

/-- C5 counterexample: in `q("ab" x)` the `\)` mismatch occurs at byte
offset 7, whose true position is line 1, column 8; but the raised error
reports column 6, because the string body `ab` advanced the offset
without updating the column.  The claim as stated (reported position =
true position of the mismatch offset) is false. -/
theorem claimC5_counterexample :
    parseAll "q(\"ab\" x)" =
      .error ⟨1, 6, "Ожидается токен, соответствующий регулярному выражению: \\)", 7⟩
    ∧ lineColOfOffset "q(\"ab\" x)".toList 7 = (1, 8)
    ∧ (6 : Nat) ≠ 8 := by
  refine ⟨rfl, rfl, ?_⟩
  decide

/-! ## Driver lemmas -/

theorem runProgram_parse_error {src : String} {e : PErr} (h : parseAll src = .error e) :
    runProgram src = ([], some (.parse e)) := by
  unfold runProgram
  rw [h]

theorem runProgram_parse_ok {src : String} {stmts : List Ast} (h : parseAll src = .ok stmts) :
    runProgram src = ((evalStmts [] stmts).1, (evalStmts [] stmts).2.1.map RunErr.eval) := by
  unfold runProgram
  rw [h]

theorem evalStmts_append (xs : List Ast) : ∀ (env : Env) (outs : List String) (env' : Env),
    evalStmts env xs = (outs, none, env') → ∀ ys : List Ast,
    evalStmts env (xs ++ ys) =
      (outs ++ (evalStmts env' ys).1, (evalStmts env' ys).2.1, (evalStmts env' ys).2.2) := by
  induction xs with
  | nil =>
    intro env outs env' h ys
    simp only [evalStmts, Prod.mk.injEq] at h
    obtain ⟨h1, -, h3⟩ := h
    subst h1
    subst h3
    simp
  | cons stmt rest ih =>
    intro env outs env' h ys
    cases he : evaluate env stmt with
    | error e =>
      simp only [evalStmts, he, Prod.mk.injEq] at h
      exact absurd h.2.1 (by simp)
    | ok res =>
      obtain ⟨val, env1, out⟩ := res
      rcases hrec : evalStmts env1 rest with ⟨o2, r2, e2⟩
      simp only [evalStmts, he, hrec, Prod.mk.injEq] at h
      obtain ⟨houts, hr2, he2⟩ := h
      subst hr2
      subst he2
      subst houts
      have hih := ih env1 o2 e2 hrec ys
      simp only [List.cons_append, evalStmts, he, Prod.mk.injEq]
      simp [hih, List.append_assoc]

theorem lookupEnv_pyInsert (env : Env) (x : String) (v : Ast) :
    lookupEnv (pyInsert env x v) x = some v := by
  induction env with
  | nil => simp [pyInsert, lookupEnv]
  | cons kv rest ih =>
    obtain ⟨k, w⟩ := kv
    by_cases h : k = x
    · subst h
      simp [pyInsert, lookupEnv]
    · simp [pyInsert, lookupEnv, h, ih]

theorem evalStmts_error_frame {env : Env} {pre : List Ast} {outs : List String} {env' : Env}
    (h : evalStmts env pre = (outs, none, env')) {bad : Ast} {e : EErr}
    (hb : evaluate env' bad = .error e) (post : List Ast) :
    evalStmts env (pre ++ bad :: post) = (outs, some e, env') := by
  rw [evalStmts_append pre env outs env' h (bad :: post)]
  simp only [evalStmts]
  rw [hb]
  simp

/-- C2 — confirmed.  Whenever parsing fails, `main` aborts before the
interpreter runs: the program produces no output at all, surfacing only
the parse error — even when `q(...)` directives lexically precede the
failure.  In particular `q(1)\nbadtoken` fails at line 2 and emits
nothing. -/
theorem claimC2 :
    (∀ (src : String) (e : PErr), parseAll src = .error e →
      runProgram src = ([], some (.parse e)))
    ∧ parseAll "q(1)\nbadtoken" =
        .error ⟨2, 1, "Ожидается число, строка, словарь или переменная ($[имя])", 5⟩
    ∧ runProgram "q(1)\nbadtoken" =
        ([], some (.parse ⟨2, 1, "Ожидается число, строка, словарь или переменная ($[имя])", 5⟩)) :=
  ⟨fun _ _ h => runProgram_parse_error h, rfl, runProgram_parse_error rfl⟩

/-- C2 witness: the theorem's universal part applied to the concrete
source `"badtoken"`, whose parse fails at line 1, column 1. -/
theorem claimC2_witness :
    runProgram "badtoken" =
      ([], some (.parse ⟨1, 1, "Ожидается число, строка, словарь или переменная ($[имя])", 0⟩)) :=
  claimC2.1 "badtoken"
    ⟨1, 1, "Ожидается число, строка, словарь или переменная ($[имя])", 0⟩ rfl

/-- C3 — corrected (amended).  A bare top-level statement produces no
output and leaves the environment unchanged; a bare *variable
reference* is looked up in the current environment (failing with an
Undefined-Variable error when unbound), but a bare non-reference value
is returned verbatim — its nested variable references are NOT resolved
or validated (see the counterexample). -/
theorem claimC3 :
    (∀ (env : Env) (n : String) (v : Ast), lookupEnv env n = some v →
      evaluate env (.var n) = .ok (some v, env, []))
    ∧ (∀ (env : Env) (n : String), lookupEnv env n = none →
      evaluate env (.var n) = .error (.undefinedVar n))
    ∧ (∀ (env : Env) (a : Ast), isBareValue a = true →
      evaluate env a = .ok (some a, env, [])) := by
  refine ⟨?_, ?_, ?_⟩
  · intro env n v h
    simp [evaluate, h]
  · intro env n h
    simp [evaluate, h]
  · intro env a h
    cases a <;> simp_all [isBareValue, evaluate]

/-- C3 witness: the theorem's three parts at concrete inputs — a bound
bare reference, an unbound bare reference, and a bare dict whose nested
reference is left unresolved. -/
theorem claimC3_witness :
    evaluate [("z", .num 7)] (.var "z") = .ok (some (.num 7), [("z", .num 7)], [])
    ∧ evaluate [] (.var "z") = .error (.undefinedVar "z")
    ∧ evaluate [] (.dict [("k", .var "y")]) =
        .ok (some (.dict [("k", .var "y")]), [], []) :=
  ⟨claimC3.1 [("z", .num 7)] "z" (.num 7) rfl,
   claimC3.2.1 [] "z" rfl,
   claimC3.2.2 [] (.dict [("k", .var "y")]) rfl⟩

/-- C3 counterexample: the program `{k => $[y]}` — a bare dict
statement containing the nested reference `$[y]` with `y` unbound —
runs to completion with no error (and no output), whereas the claim
says the value is resolved and validation fails with an
Undefined-Variable error. -/
theorem claimC3_counterexample :
    runProgram "\x7bk => $[y]\x7d" = ([], none) := by
  have h : parseAll "\x7bk => $[y]\x7d" = .ok [.dict [("k", .var "y")]] := rfl
  rw [runProgram_parse_ok h]
  rfl

/-- C4 — corrected (amended).  Only a *top-level* statement node with
an unrecognized tag is rejected with the unknown-node error; an
unrecognized node nested inside a let value, a q argument or a
dictionary entry is passed through verbatim by `_eval_value`'s final
`else` branch — silently, with no rejection (see the
counterexample). -/
theorem claimC4 :
    (∀ (env : Env) (tag : String) (args : List Ast),
      evaluate env (.unknown tag args) = .error (.unknownNode (.unknown tag args)))
    ∧ (∀ (env : Env) (tag : String) (args : List Ast),
      evalValue env (.unknown tag args) = .ok (.unknown tag args)) :=
  ⟨fun _ _ _ => rfl, fun _ _ _ => rfl⟩

/-- C4 counterexample: a statement sequence whose let value contains an
unrecognized node evaluates with NO error — the bogus node is stored in
the environment untouched — whereas the claim says evaluation rejects
unknown nodes at any depth. -/
theorem claimC4_counterexample :
    evalStmts [] [.letB "x" (.unknown "bogus" [])] =
      ([], none, [("x", .unknown "bogus" [])]) := rfl

/-- C7 — confirmed.  `q($[y])` with `y` unbound fails with the
Undefined-Variable error naming `y`, produces no output, and exits with
code 1; and in general, when evaluation of a statement fails, the
outputs of the preceding statements are preserved and the following
statements are never evaluated. -/
theorem claimC7 :
    runProgram "q($[y])" = ([], some (.eval (.undefinedVar "y")))
    ∧ exitCode (runProgram "q($[y])") = 1
    ∧ (∀ (env : Env) (pre : List Ast) (outs : List String) (env' : Env),
        evalStmts env pre = (outs, none, env') →
        ∀ (bad : Ast) (e : EErr), evaluate env' bad = .error e →
        ∀ post : List Ast, evalStmts env (pre ++ bad :: post) = (outs, some e, env')) := by
  have h : parseAll "q($[y])" = .ok [.q (.var "y")] := rfl
  have hrun : runProgram "q($[y])" = ([], some (.eval (.undefinedVar "y"))) := by
    rw [runProgram_parse_ok h]
    rfl
  refine ⟨hrun, ?_, ?_⟩
  · rw [hrun]
    rfl
  · intro env pre outs env' hpre bad e hbad post
    exact evalStmts_error_frame hpre hbad post

/-- C7 witness: the framing part at a concrete failing statement — the
output of the preceding `q(1)` is preserved, and the `q(2)` after the
failure point contributes nothing. -/
theorem claimC7_witness :
    evalStmts [] ([.q (.num 1)] ++ .var "y" :: [.q (.num 2)]) =
      (["1"], some (.undefinedVar "y"), []) :=
  claimC7.2.2 [] [.q (.num 1)] ["1"] [] rfl (.var "y") (.undefinedVar "y") rfl [.q (.num 2)]

/-- One unfolding step of the `parse_all` loop: when input remains and,
after skipping whitespace, a statement parses successfully, the
program is that statement followed by the parse of the rest. -/
theorem parseAllF_step (fuel : Nat) (s s1 s2 : PState) (stmt : Ast) (rest : List Ast)
    (h0 : s.pos < s.text.length)
    (h1 : skipWs s = s1)
    (h2 : ¬ s1.pos ≥ s1.text.length)
    (h3 : parseStatement fuel s1 = .ok (some stmt, s2))
    (h4 : parseAllF fuel s2 = .ok rest) :
    parseAllF (fuel + 1) s = .ok (stmt :: rest) := by
  rw [parseAllF.eq_2, h1, if_pos h0, if_neg h2, h3]
  simp [h4]

/-- The `parse_all` loop stops with the statements collected so far
when the position has reached the end of the text. -/
theorem parseAllF_end (fuel : Nat) (s : PState) (h : ¬ s.pos < s.text.length) :
    parseAllF (fuel + 1) s = .ok [] := by
  rw [parseAllF.eq_2, if_neg h]

/-- The `parse_dict` loop exits (leaving `}` for the caller) when the
first non-whitespace character is `}`. -/
theorem parseDictLoop_done (fuel : Nat) (first : Bool) (result : List (String × Ast))
    (s s1 : PState)
    (h0 : s.pos < s.text.length)
    (hskip : skipWs s = s1)
    (hbr : s1.text[s1.pos]? = some '\x7d') :
    parseDictLoop (fuel + 1) first result s = .ok (result, s1) := by
  rw [parseDictLoop.eq_2, hskip, if_pos h0, if_pos hbr]

/-- One entry step of the `parse_dict` loop: comma (except before the
first entry), key, `=>`, value, then the loop continues with the entry
assigned into the result. -/
theorem parseDictLoop_step (fuel : Nat) (first : Bool) (result : List (String × Ast))
    (s s1 s2 s3 s4 s5 : PState) (key : String) (tok : List Char) (value : Ast)
    (r : Except PErr (List (String × Ast) × PState))
    (h0 : s.pos < s.text.length)
    (hskip : skipWs s = s1)
    (hbr : ¬ s1.text[s1.pos]? = some '\x7d')
    (hcomma : parseDictComma first s1 = .ok s2)
    (hkey : parseIdentifier s2 = .ok (key, s3))
    (harrow : pmatch (.lit ['=', '>'] "=>") s3 = .ok (tok, s4))
    (hval : parseValue fuel s4 = .ok (value, s5))
    (hrec : parseDictLoop fuel false (pyInsert result key value) s5 = r) :
    parseDictLoop (fuel + 1) first result s = r := by
  rw [parseDictLoop.eq_2, hskip, if_pos h0, if_neg hbr]
  simp only [hcomma, hkey, harrow, hval]
  exact hrec

/-- `parse_dict` assembled from its three parts: opening brace, entry
loop, closing brace. -/
theorem parseDict_parts (fuel : Nat) (s s1 s2 s3 : PState) (t1 t3 : List Char)
    (entries : List (String × Ast))
    (h1 : pmatch (.lit ['\x7b'] "\x7b") s = .ok (t1, s1))
    (h2 : parseDictLoop fuel true [] s1 = .ok (entries, s2))
    (h3 : pmatch (.lit ['\x7d'] "\x7d") s2 = .ok (t3, s3)) :
    parseDict (fuel + 1) s = .ok (entries, s3) := by
  rw [parseDict.eq_2, h1]
  simp only [h2, h3]

/-- `parse_value` dispatching on `\x7b` into `parse_dict`. -/
theorem parseValue_dict (fuel : Nat) (s s1 s2 : PState) (entries : List (String × Ast))
    (hskip : skipWs s = s1)
    (hc : s1.text[s1.pos]? = some '\x7b')
    (h : parseDict fuel s1 = .ok (entries, s2)) :
    parseValue (fuel + 1) s = .ok (.dict entries, s2) := by
  rw [parseValue.eq_2, hskip, hc]
  simp [h]

/-- `parse_expression` falling through to `parse_value` when the first
non-whitespace character is not `$`. -/
theorem parseExpression_value (fuel : Nat) (s s1 : PState) (v : Ast) (s2 : PState)
    (hskip : skipWs s = s1)
    (hd : ¬ s1.text[s1.pos]? = some '$')
    (hval : parseValue fuel s1 = .ok (v, s2)) :
    parseExpression fuel s = .ok (v, s2) := by
  unfold parseExpression
  rw [hskip, if_neg hd, hval]

/-- `parse_statement` dispatching to `parse_expression` when the text
at the position starts with neither `let` nor `q(`. -/
theorem parseStatement_expr (fuel : Nat) (s s1 : PState) (stmt : Ast) (s2 : PState)
    (hskip : skipWs s = s1)
    (hlen : ¬ s1.pos ≥ s1.text.length)
    (hnl : litAt ['l', 'e', 't'] (s1.text.drop s1.pos) = false)
    (hnq : litAt ['q', '('] (s1.text.drop s1.pos) = false)
    (hex : parseExpression fuel s1 = .ok (stmt, s2)) :
    parseStatement fuel s = .ok (some stmt, s2) := by
  unfold parseStatement
  rw [hskip, if_neg hlen]
  simp only [hnl, hnq, Bool.false_eq_true, if_false, hex]

/-- C8 — confirmed.  The rebinding program outputs `1` then `2`: each
use is resolved against the environment current at that point.  In
general, the outputs and final environment of a statement prefix are
unaffected by the statements that follow it (sequential evaluation),
and a later `let` rebinding makes the new value the one subsequent
lookups see (last binding wins). -/
theorem claimC8 :
    runProgram "let x = 1\nq($[x])\nlet x = 2\nq($[x])" = (["1", "2"], none)
    ∧ (∀ (env : Env) (xs : List Ast) (outs : List String) (env' : Env),
        evalStmts env xs = (outs, none, env') → ∀ ys : List Ast,
        evalStmts env (xs ++ ys) =
          (outs ++ (evalStmts env' ys).1, (evalStmts env' ys).2.1, (evalStmts env' ys).2.2))
    ∧ (∀ (env : Env) (x : String) (v : Ast), lookupEnv (pyInsert env x v) x = some v) := by
  refine ⟨?_, ?_, lookupEnv_pyInsert⟩
  · have h1 : parseStatement 155 ⟨"let x = 1\nq($[x])\nlet x = 2\nq($[x])".toList, 0, 1, 1⟩ =
        .ok (some (.letB "x" (.num 1)),
          ⟨"let x = 1\nq($[x])\nlet x = 2\nq($[x])".toList, 9, 1, 10⟩) := rfl
    have h2 : parseStatement 154 ⟨"let x = 1\nq($[x])\nlet x = 2\nq($[x])".toList, 10, 2, 1⟩ =
        .ok (some (.q (.var "x")),
          ⟨"let x = 1\nq($[x])\nlet x = 2\nq($[x])".toList, 17, 2, 8⟩) := rfl
    have h3 : parseStatement 153 ⟨"let x = 1\nq($[x])\nlet x = 2\nq($[x])".toList, 18, 3, 1⟩ =
        .ok (some (.letB "x" (.num 2)),
          ⟨"let x = 1\nq($[x])\nlet x = 2\nq($[x])".toList, 27, 3, 10⟩) := rfl
    have h4 : parseStatement 152 ⟨"let x = 1\nq($[x])\nlet x = 2\nq($[x])".toList, 28, 4, 1⟩ =
        .ok (some (.q (.var "x")),
          ⟨"let x = 1\nq($[x])\nlet x = 2\nq($[x])".toList, 35, 4, 8⟩) := rfl
    have q4 : parseAllF (151 + 1) ⟨"let x = 1\nq($[x])\nlet x = 2\nq($[x])".toList, 35, 4, 8⟩ =
        .ok [] := parseAllF_end 151 _ (by decide)
    have q3 : parseAllF (152 + 1) ⟨"let x = 1\nq($[x])\nlet x = 2\nq($[x])".toList, 27, 3, 10⟩ =
        .ok [.q (.var "x")] :=
      parseAllF_step 152 _ _ _ _ _ (by decide) (by rfl) (by decide) h4 q4
    have q2 : parseAllF (153 + 1) ⟨"let x = 1\nq($[x])\nlet x = 2\nq($[x])".toList, 17, 2, 8⟩ =
        .ok [.letB "x" (.num 2), .q (.var "x")] :=
      parseAllF_step 153 _ _ _ _ _ (by decide) (by rfl) (by decide) h3 q3
    have q1 : parseAllF (154 + 1) ⟨"let x = 1\nq($[x])\nlet x = 2\nq($[x])".toList, 9, 1, 10⟩ =
        .ok [.q (.var "x"), .letB "x" (.num 2), .q (.var "x")] :=
      parseAllF_step 154 _ _ _ _ _ (by decide) (by rfl) (by decide) h2 q2
    have q0 : parseAllF (155 + 1) ⟨"let x = 1\nq($[x])\nlet x = 2\nq($[x])".toList, 0, 1, 1⟩ =
        .ok [.letB "x" (.num 1), .q (.var "x"), .letB "x" (.num 2), .q (.var "x")] :=
      parseAllF_step 155 _ _ _ _ _ (by decide) (by rfl) (by decide) h1 q1
    have hp : parseAll "let x = 1\nq($[x])\nlet x = 2\nq($[x])" =
        .ok [.letB "x" (.num 1), .q (.var "x"), .letB "x" (.num 2), .q (.var "x")] := q0
    rw [runProgram_parse_ok hp]
    rfl
  · intro env xs outs env' h ys
    exact evalStmts_append xs env outs env' h ys

/-- C8 witness: the prefix-stability part at concrete statements — the
prefix `let x = 1; q($[x])` contributes output `1` unchanged when the
rebinding suffix follows it. -/
theorem claimC8_witness :
    evalStmts [] ([.letB "x" (.num 1), .q (.var "x")] ++ [.letB "x" (.num 2), .q (.var "x")]) =
      (["1"] ++ (evalStmts [("x", .num 1)] [.letB "x" (.num 2), .q (.var "x")]).1,
       (evalStmts [("x", .num 1)] [.letB "x" (.num 2), .q (.var "x")]).2.1,
       (evalStmts [("x", .num 1)] [.letB "x" (.num 2), .q (.var "x")]).2.2) :=
  claimC8.2.1 [] [.letB "x" (.num 1), .q (.var "x")] ["1"] [("x", .num 1)] rfl
    [.letB "x" (.num 2), .q (.var "x")]

theorem pyInsert_keys (d : List (String × Ast)) (k : String) (v : Ast) :
    (pyInsert d k v).map Prod.fst =
      if k ∈ d.map Prod.fst then d.map Prod.fst else d.map Prod.fst ++ [k] := by
  induction d with
  | nil => simp [pyInsert]
  | cons kv rest ih =>
    obtain ⟨k', v'⟩ := kv
    by_cases h : k' = k
    · subst h
      simp [pyInsert]
    · have h2 : ¬ k = k' := fun e => h e.symm
      simp only [pyInsert, if_neg h, List.map_cons, ih]
      by_cases hm : k ∈ rest.map Prod.fst
      · simp [hm, h2]
      · simp [hm, h2]

/-- C10 — confirmed.  Python dict assignment keeps a duplicate key at
its first occurrence's position and overwrites its value (`pyInsert`:
key list unchanged when the key is present, value of the last
assignment wins on lookup); hence the literal
`{a => 1, b => 2, a => 3}` parses to the ordered mapping
`[a ↦ 3, b ↦ 2]` — `a` once, in first position, with the value of the
last occurrence. -/
theorem claimC10 :
    (∀ (d : List (String × Ast)) (k : String) (v : Ast),
      (pyInsert d k v).map Prod.fst =
        if k ∈ d.map Prod.fst then d.map Prod.fst else d.map Prod.fst ++ [k])
    ∧ (∀ (d : List (String × Ast)) (k : String) (v : Ast),
      lookupEnv (pyInsert d k v) k = some v)
    ∧ parseAll "\x7ba => 1, b => 2, a => 3\x7d" =
        .ok [.dict [("a", .num 3), ("b", .num 2)]] := by
  refine ⟨pyInsert_keys, lookupEnv_pyInsert, ?_⟩
  have l4 : parseDictLoop (105 + 1) false [("a", Ast.num 3), ("b", Ast.num 2)]
      ⟨"\x7ba => 1, b => 2, a => 3\x7d".toList, 23, 1, 24⟩ =
      .ok ([("a", Ast.num 3), ("b", Ast.num 2)],
           ⟨"\x7ba => 1, b => 2, a => 3\x7d".toList, 23, 1, 24⟩) :=
    parseDictLoop_done 105 false [("a", Ast.num 3), ("b", Ast.num 2)]
      ⟨"\x7ba => 1, b => 2, a => 3\x7d".toList, 23, 1, 24⟩
      ⟨"\x7ba => 1, b => 2, a => 3\x7d".toList, 23, 1, 24⟩
      (by decide) (by rfl) (by decide)
  have l3 : parseDictLoop (106 + 1) false [("a", Ast.num 1), ("b", Ast.num 2)]
      ⟨"\x7ba => 1, b => 2, a => 3\x7d".toList, 15, 1, 16⟩ =
      .ok ([("a", Ast.num 3), ("b", Ast.num 2)],
           ⟨"\x7ba => 1, b => 2, a => 3\x7d".toList, 23, 1, 24⟩) :=
    parseDictLoop_step 106 false [("a", Ast.num 1), ("b", Ast.num 2)]
      ⟨"\x7ba => 1, b => 2, a => 3\x7d".toList, 15, 1, 16⟩
      ⟨"\x7ba => 1, b => 2, a => 3\x7d".toList, 15, 1, 16⟩
      ⟨"\x7ba => 1, b => 2, a => 3\x7d".toList, 16, 1, 17⟩
      ⟨"\x7ba => 1, b => 2, a => 3\x7d".toList, 18, 1, 19⟩
      ⟨"\x7ba => 1, b => 2, a => 3\x7d".toList, 21, 1, 22⟩
      ⟨"\x7ba => 1, b => 2, a => 3\x7d".toList, 23, 1, 24⟩
      "a" ['=', '>'] (Ast.num 3) _
      (by decide) (by rfl) (by decide) (by rfl) (by rfl) (by rfl) (by rfl) l4
  have l2 : parseDictLoop (107 + 1) false [("a", Ast.num 1)]
      ⟨"\x7ba => 1, b => 2, a => 3\x7d".toList, 7, 1, 8⟩ =
      .ok ([("a", Ast.num 3), ("b", Ast.num 2)],
           ⟨"\x7ba => 1, b => 2, a => 3\x7d".toList, 23, 1, 24⟩) :=
    parseDictLoop_step 107 false [("a", Ast.num 1)]
      ⟨"\x7ba => 1, b => 2, a => 3\x7d".toList, 7, 1, 8⟩
      ⟨"\x7ba => 1, b => 2, a => 3\x7d".toList, 7, 1, 8⟩
      ⟨"\x7ba => 1, b => 2, a => 3\x7d".toList, 8, 1, 9⟩
      ⟨"\x7ba => 1, b => 2, a => 3\x7d".toList, 10, 1, 11⟩
      ⟨"\x7ba => 1, b => 2, a => 3\x7d".toList, 13, 1, 14⟩
      ⟨"\x7ba => 1, b => 2, a => 3\x7d".toList, 15, 1, 16⟩
      "b" ['=', '>'] (Ast.num 2) _
      (by decide) (by rfl) (by decide) (by rfl) (by rfl) (by rfl) (by rfl) l3
  have l1 : parseDictLoop (108 + 1) true []
      ⟨"\x7ba => 1, b => 2, a => 3\x7d".toList, 1, 1, 2⟩ =
      .ok ([("a", Ast.num 3), ("b", Ast.num 2)],
           ⟨"\x7ba => 1, b => 2, a => 3\x7d".toList, 23, 1, 24⟩) :=
    parseDictLoop_step 108 true []
      ⟨"\x7ba => 1, b => 2, a => 3\x7d".toList, 1, 1, 2⟩
      ⟨"\x7ba => 1, b => 2, a => 3\x7d".toList, 1, 1, 2⟩
      ⟨"\x7ba => 1, b => 2, a => 3\x7d".toList, 1, 1, 2⟩
      ⟨"\x7ba => 1, b => 2, a => 3\x7d".toList, 2, 1, 3⟩
      ⟨"\x7ba => 1, b => 2, a => 3\x7d".toList, 5, 1, 6⟩
      ⟨"\x7ba => 1, b => 2, a => 3\x7d".toList, 7, 1, 8⟩
      "a" ['=', '>'] (Ast.num 1) _
      (by decide) (by rfl) (by decide) (by rfl) (by rfl) (by rfl) (by rfl) l2
  have d : parseDict (109 + 1) ⟨"\x7ba => 1, b => 2, a => 3\x7d".toList, 0, 1, 1⟩ =
      .ok ([("a", Ast.num 3), ("b", Ast.num 2)],
           ⟨"\x7ba => 1, b => 2, a => 3\x7d".toList, 24, 1, 25⟩) :=
    parseDict_parts 109
      ⟨"\x7ba => 1, b => 2, a => 3\x7d".toList, 0, 1, 1⟩
      ⟨"\x7ba => 1, b => 2, a => 3\x7d".toList, 1, 1, 2⟩
      ⟨"\x7ba => 1, b => 2, a => 3\x7d".toList, 23, 1, 24⟩
      ⟨"\x7ba => 1, b => 2, a => 3\x7d".toList, 24, 1, 25⟩
      ['\x7b'] ['\x7d'] [("a", Ast.num 3), ("b", Ast.num 2)]
      (by rfl) l1 (by rfl)
  have v : parseValue (110 + 1) ⟨"\x7ba => 1, b => 2, a => 3\x7d".toList, 0, 1, 1⟩ =
      .ok (.dict [("a", Ast.num 3), ("b", Ast.num 2)],
           ⟨"\x7ba => 1, b => 2, a => 3\x7d".toList, 24, 1, 25⟩) :=
    parseValue_dict 110
      ⟨"\x7ba => 1, b => 2, a => 3\x7d".toList, 0, 1, 1⟩
      ⟨"\x7ba => 1, b => 2, a => 3\x7d".toList, 0, 1, 1⟩
      ⟨"\x7ba => 1, b => 2, a => 3\x7d".toList, 24, 1, 25⟩
      [("a", Ast.num 3), ("b", Ast.num 2)]
      (by rfl) (by decide) d
  have e : parseExpression 111 ⟨"\x7ba => 1, b => 2, a => 3\x7d".toList, 0, 1, 1⟩ =
      .ok (.dict [("a", Ast.num 3), ("b", Ast.num 2)],
           ⟨"\x7ba => 1, b => 2, a => 3\x7d".toList, 24, 1, 25⟩) :=
    parseExpression_value 111
      ⟨"\x7ba => 1, b => 2, a => 3\x7d".toList, 0, 1, 1⟩
      ⟨"\x7ba => 1, b => 2, a => 3\x7d".toList, 0, 1, 1⟩
      (.dict [("a", Ast.num 3), ("b", Ast.num 2)])
      ⟨"\x7ba => 1, b => 2, a => 3\x7d".toList, 24, 1, 25⟩
      (by rfl) (by decide) v
  have st : parseStatement 111 ⟨"\x7ba => 1, b => 2, a => 3\x7d".toList, 0, 1, 1⟩ =
      .ok (some (.dict [("a", Ast.num 3), ("b", Ast.num 2)]),
           ⟨"\x7ba => 1, b => 2, a => 3\x7d".toList, 24, 1, 25⟩) :=
    parseStatement_expr 111
      ⟨"\x7ba => 1, b => 2, a => 3\x7d".toList, 0, 1, 1⟩
      ⟨"\x7ba => 1, b => 2, a => 3\x7d".toList, 0, 1, 1⟩
      (.dict [("a", Ast.num 3), ("b", Ast.num 2)])
      ⟨"\x7ba => 1, b => 2, a => 3\x7d".toList, 24, 1, 25⟩
      (by rfl) (by decide) (by rfl) (by rfl) e
  have q0 : parseAllF (111 + 1) ⟨"\x7ba => 1, b => 2, a => 3\x7d".toList, 0, 1, 1⟩ =
      .ok [.dict [("a", Ast.num 3), ("b", Ast.num 2)]] :=
    parseAllF_step 111
      ⟨"\x7ba => 1, b => 2, a => 3\x7d".toList, 0, 1, 1⟩
      ⟨"\x7ba => 1, b => 2, a => 3\x7d".toList, 0, 1, 1⟩
      ⟨"\x7ba => 1, b => 2, a => 3\x7d".toList, 24, 1, 25⟩
      (.dict [("a", Ast.num 3), ("b", Ast.num 2)]) []
      (by decide) (by rfl) (by decide) st
      (parseAllF_end 110 ⟨"\x7ba => 1, b => 2, a => 3\x7d".toList, 24, 1, 25⟩ (by decide))
  exact q0

/-- C6 — confirmed.  String parsing: `"a\"b"` is one literal whose
stored content is the four characters `a`, backslash, quote, `b`
(the escaped quote neither terminates the string nor is decoded);
`"a\nb"` likewise stores backslash-`n` verbatim (escapes are never
decoded); the scan loop, on a backslash, consumes it and
unconditionally the following character — whatever it is, a quote
included; and reaching end of input without an unescaped closing
quote, including when the final character is a backslash, raises the
unterminated-string error. -/
theorem claimC6 :
    parseAll "\"a\\\"b\"" = .ok [.str ['a', '\\', '"', 'b']]
    ∧ parseAll "\"a\\nb\"" = .ok [.str ['a', '\\', 'n', 'b']]
    ∧ (∀ (text : List Char) (fuel pos : Nat) (c : Char),
        text[pos]? = some '\\' → text[pos + 1]? = some c →
        strBodyEnd text (fuel + 1) pos = strBodyEnd text fuel (pos + 2))
    ∧ parseAll "\"ab" = .error ⟨1, 2, "Незакрытая строка", 3⟩
    ∧ parseAll "\"ab\\" = .error ⟨1, 2, "Незакрытая строка", 4⟩ := by
  refine ⟨rfl, rfl, ?_, rfl, rfl⟩
  intro text fuel pos c h1 h2
  have hlt : pos + 1 < text.length := by
    by_contra hge
    rw [List.getElem?_eq_none (by omega)] at h2
    cases h2
  have hn : ¬ pos + 1 ≥ text.length := by omega
  rw [strBodyEnd.eq_2, h1]
  simp [hn]

/-- C6 witness: the backslash step applied to the concrete text
`['\\', 'x']` at position 0. -/
theorem claimC6_witness :
    strBodyEnd ['\\', 'x'] (3 + 1) 0 = strBodyEnd ['\\', 'x'] 3 (0 + 2) :=
  claimC6.2.2.1 ['\\', 'x'] 3 0 'x' (by decide) (by decide)

theorem isIdentChar_not_colon_space {c : Char} (h : isIdentChar c = true) :
    c ≠ ':' ∧ c ≠ ' ' := by
  constructor <;> intro he <;> subst he <;> exact absurd h (by decide)

theorem takeWhile_ne_colon (l t : List Char) (h : ∀ ch ∈ l, ch ≠ ':') :
    (l ++ ':' :: t).takeWhile (fun ch => ch != ':') = l := by
  induction l with
  | nil => simp [List.takeWhile_cons]
  | cons a l ih =>
    have ha : a ≠ ':' := h a (List.mem_cons_self a l)
    simp only [List.cons_append, List.takeWhile_cons]
    rw [if_pos (by simp [ha])]
    rw [ih (fun ch hc => h ch (List.mem_cons_of_mem a hc))]

theorem lineKey_key_line (k t : List Char) (hne : k ≠ [])
    (hid : ∀ ch ∈ k, isIdentChar ch = true) :
    lineKey (k ++ ':' :: t) = some k := by
  cases k with
  | nil => exact absurd rfl hne
  | cons c cs =>
    have hcsp : c ≠ ' ' :=
      (isIdentChar_not_colon_space (hid c (List.mem_cons_self c cs))).2
    simp only [List.cons_append, lineKey]
    rw [if_neg hcsp]
    have htw := takeWhile_ne_colon (c :: cs) t
      (fun ch hc => (isIdentChar_not_colon_space (hid ch hc)).1)
    rw [List.cons_append] at htw
    rw [htw]

theorem topKeys_indented (ls : List (List Char)) :
    topKeys (ls.map (fun l => ' ' :: ' ' :: l)) = [] := by
  induction ls with
  | nil => rfl
  | cons l ls ih =>
    simp only [topKeys, lineKey, List.map_cons, List.filterMap_cons, if_pos rfl]
    exact ih

theorem lineKey_entry (k : String) (fl : List Char) (hne : k.toList ≠ [])
    (hid : ∀ ch ∈ k.toList, isIdentChar ch = true) :
    lineKey ((k.toList ++ [':', ' ']) ++ fl) = some k.toList := by
  have hshape : (k.toList ++ [':', ' ']) ++ fl = k.toList ++ ':' :: (' ' :: fl) := by
    simp [List.append_assoc]
  rw [hshape]
  exact lineKey_key_line k.toList _ hne hid

theorem topKeys_serBlocks : ∀ entries : List (String × Ast),
    (∀ k ∈ entries.map Prod.fst, identLike k) →
    topKeys (serBlocks entries) = entries.map (fun kv => kv.1.toList) := by
  intro entries
  induction entries with
  | nil => intro _; rfl
  | cons kv rest ih =>
    intro h
    obtain ⟨k, v⟩ := kv
    obtain ⟨hne, hid⟩ : identLike k := h k (by simp)
    have hrest := ih (fun k' hk' => h k' (by simp [hk']))
    simp only [topKeys] at hrest
    cases v
    case dict es =>
      simp only [serBlocks, topKeys, List.filterMap_append, List.filterMap_cons]
      have hkey : lineKey (k.toList ++ [':']) = some k.toList :=
        lineKey_key_line k.toList [] hne hid
      rw [hkey]
      have hind := topKeys_indented (serBlocks es)
      simp only [topKeys] at hind
      simp [hind, hrest]
    all_goals
      simp only [serBlocks, topKeys, List.filterMap_append, List.filterMap_cons]
      rw [lineKey_entry k _ hne hid]
      simp [hrest]

theorem evalEntries_keys : ∀ (env : Env) (entries res : List (String × Ast)),
    evalEntries env entries = .ok res → res.map Prod.fst = entries.map Prod.fst := by
  intro env entries
  induction entries with
  | nil =>
    intro res h
    simp only [evalEntries, Except.ok.injEq] at h
    subst h
    rfl
  | cons kv rest ih =>
    intro res h
    obtain ⟨k, v⟩ := kv
    cases hv : evalValue env v with
    | error e => simp [evalEntries, hv] at h
    | ok v' =>
      cases hr : evalEntries env rest with
      | error e => simp [evalEntries, hv, hr] at h
      | ok rest' =>
        simp only [evalEntries, hv, hr, Except.ok.injEq] at h
        subst h
        simp [ih rest' hr]

/-- C1 — confirmed.  The emitted dictionary of
`q({b => 1, a => 2})` is serialized with `b` before `a` (source
order); in general, resolving a dictionary's entries preserves the key
sequence, and the serializer prints one non-indented `key: ...` line
per entry in entry order — it never sorts. -/
theorem claimC1 :
    runProgram "q(\x7bb => 1, a => 2\x7d)" = (["b: 1\na: 2"], none)
    ∧ (∀ (env : Env) (entries res : List (String × Ast)),
        evalEntries env entries = .ok res → res.map Prod.fst = entries.map Prod.fst)
    ∧ (∀ entries : List (String × Ast),
        (∀ k ∈ entries.map Prod.fst, identLike k) →
        topKeys (serBlocks entries) = entries.map (fun kv => kv.1.toList)) := by
  refine ⟨?_, evalEntries_keys, topKeys_serBlocks⟩
  have h : parseAll "q(\x7bb => 1, a => 2\x7d)" =
      .ok [.q (.dict [("b", .num 1), ("a", .num 2)])] := rfl
  rw [runProgram_parse_ok h]
  rfl

/-- C1 witness: resolution and serialization applied to concrete
one-entry dictionaries. -/
theorem claimC1_witness :
    ([("k", Ast.num 5)] : List (String × Ast)).map Prod.fst =
      ([("k", Ast.var "x")] : List (String × Ast)).map Prod.fst
    ∧ topKeys (serBlocks [("k", Ast.num 5)]) = [['k']] := by
  constructor
  · exact claimC1.2.1 [("x", .num 5)] [("k", .var "x")] [("k", .num 5)] (by rfl)
  · refine claimC1.2.2 [("k", Ast.num 5)] ?_
    intro k' hk'
    simp only [List.map_cons, List.map_nil, List.mem_singleton] at hk'
    subst hk'
    exact ⟨by decide, by decide⟩

end ConfigParser
